import Mathlib

/-!
Shallow embedding of the `pyt` utility library.

The embedding covers the parts of the code the verified claims are about:

* `src/pyt/threadutil.py`: the `batch` partition function, the default thread
  pool, and the family of dispatch helpers (`batch_handle`,
  `batch_handle_unordered`, `batch_handle_with_batch`, `handle`,
  `handle_unordered`, `handle_with_item`, `handle_with_item_unordered`).
  `multiprocessing.pool.ThreadPool.imap` yields results in submission order;
  `imap_unordered` yields them in the order the pool completes them, which is
  modelled by an explicit `completed` list (the completion order), constrained
  to be a permutation of the submitted list in the theorems.
* `src/pyt/loggingutil.py`: the module-level `_root_name` state, the
  `get_root_logger` / `get_logger` retrieval functions and the `initialize`
  function (named `initialize'` here).
* `src/pyt/mongoutil.py`: the `autoretry` decorator.

Python exceptions are modelled with `Except`; the module-level mutable state of
`threadutil` and `loggingutil` is passed explicitly.
-/

namespace Pyt

/-! ### threadutil: the default pool -/

/-- A `multiprocessing.pool.ThreadPool`: all the claims need of it is its fixed
worker count, set at construction (`ThreadPool(8)` in `get_default_pool`). -/
structure ThreadPool where
  workers : Nat
deriving DecidableEq

/-- `ThreadPool(n)`. -/
def ThreadPool.new (n : Nat) : ThreadPool := ⟨n⟩

/-- `get_default_pool` from `threadutil.py`: reads the module variable
`_default_pool` (the `Option ThreadPool` argument), creates `ThreadPool(8)` when
it is still `None`, and returns the pool together with the updated module
state. -/
def get_default_pool : Option ThreadPool → ThreadPool × Option ThreadPool
  | none => (ThreadPool.new 8, some (ThreadPool.new 8))
  | some p => (p, some p)

/-- The `if pool is None: pool = get_default_pool()` prologue shared by every
dispatch function: an explicitly passed pool is used as given and leaves the
module state alone; `None` resolves through `get_default_pool`. -/
def resolve_pool : Option ThreadPool → Option ThreadPool → ThreadPool × Option ThreadPool
  | some p, s => (p, s)
  | none, s => get_default_pool s

/-! ### threadutil: batching -/

/-- Python `range(0, stop, step)` for a positive `step`: the indices
`0, step, 2*step, ...` below `stop`. The element count `(stop + step - 1) / step`
is CPython's range-length formula `(stop - start + step - 1) // step`
specialised to `start = 0`. -/
def pyRangeNat (stop step : Nat) : List Nat :=
  (List.range ((stop + step - 1) / step)).map (fun i => i * step)

/-- Python `range(0, stop, step)` where `stop` is a list length (so `0 ≤ stop`)
and `step` is an arbitrary `int`. `step = 0` raises
`ValueError: range() arg 3 must not be zero`; a negative `step` yields the empty
range because the start `0` does not lie strictly above the stop `stop ≥ 0`. -/
def pyRange0 (stop : Nat) (step : Int) : Except String (List Nat) :=
  if step = 0 then .error "range() arg 3 must not be zero"
  else if 0 < step then .ok (pyRangeNat stop step.toNat)
  else .ok []

/-- Python slicing `items[lo : hi]` for non-negative bounds: both bounds are
clamped to the list length, which `take`/`drop` do on their own. -/
def pySlice (items : List α) (lo hi : Nat) : List α := (items.take hi).drop lo

/-- `batch` from `threadutil.py`:
`[items[i : i + batch_size] for i in range(0, len(items), batch_size)]`.
The slice bounds only arise for a positive `batch_size` (otherwise the range is
empty or an error), so `i + batch_size` is written with `batch_size.toNat`. -/
def batch (items : List α) (batch_size : Int) : Except String (List (List α)) :=
  (pyRange0 items.length batch_size).map
    (fun idxs => idxs.map (fun i => pySlice items i (i + batch_size.toNat)))

/-- Recursive restatement of `batch` for a positive size: the first
`s + 1` items, then the chunks of the rest. The bridge lemma
`batch_pos_eq_chunk` below proves it equal to `batch`. -/
def chunk (s : Nat) : List α → List (List α)
  | [] => []
  | x :: xs => (x :: xs.take s) :: chunk s (xs.drop s)
termination_by l => l.length
decreasing_by simp [List.length_drop]; omega

/-! ### threadutil: pool iteration primitives -/

/-- `pool.imap f xs`: the handler runs once per element, and results are
yielded to the consuming loop in submission order. -/
def imap (f : α → β) (xs : List α) : List β := xs.map f

/-- `pool.imap_unordered f xs`: the handler runs once per element, and results
are yielded in the order the pool completes them. `completed` is that
completion order; the theorems constrain it to be a permutation of the
submitted list `xs`. -/
def imap_unordered (f : α → β) (completed : List α) : List β := completed.map f

/-- `_with_item` from `threadutil.py`: runs `handler` on `item` and returns the
`(item, result)` pair. -/
def _with_item (handler : α → β) (item : α) : α × β := (item, handler item)

/-! ### threadutil: dispatch functions

Each dispatch function is modelled by the sequence of `result_handler`
invocations it performs: the consuming `for` loop calls `result_handler` once
per yielded value, sequentially, so that invocation sequence is exactly the
yielded list. -/

/-- `batch_handle`: partitions `items` with `batch`, feeds the batches through
`pool.imap batch_handler`, and hands each yielded value to `result_handler` in
order. Returns the sequence of `result_handler` invocations. -/
def batch_handle (items : List α) (batch_size : Int) (batch_handler : List α → β) :
    Except String (List β) :=
  (batch items batch_size).map (fun bs => imap batch_handler bs)

/-- `batch_handle_unordered`: as `batch_handle` but iterates
`pool.imap_unordered`, so the yielded order is the pool's completion order
`completed` (a permutation of the batch list). -/
def batch_handle_unordered (items : List α) (batch_size : Int) (batch_handler : List α → β)
    (completed : List (List α)) : Except String (List β) :=
  (batch items batch_size).map (fun _bs => imap_unordered batch_handler completed)

/-- `batch_handle_with_batch`: as `batch_handle` but maps
`partial(_with_item, batch_handler)` so `result_handler` receives
`(batch, result)` pairs, still through order-preserving `pool.imap`. -/
def batch_handle_with_batch (items : List α) (batch_size : Int) (batch_handler : List α → β) :
    Except String (List (List α × β)) :=
  (batch items batch_size).map (fun bs => imap ( _with_item batch_handler) bs)

/-- `handle`: feeds the items themselves through order-preserving `pool.imap`. -/
def handle (items : List α) (item_handler : α → β) : List β :=
  imap item_handler items

/-- `handle_unordered`: feeds the items through `pool.imap_unordered`;
`completed` is the pool's completion order over `items`. -/
def handle_unordered (items : List α) (item_handler : α → β) (completed : List α) : List β :=
  imap_unordered item_handler completed

/-- `handle_with_item`: the source iterates
`pool.imap_unordered(partial(_with_item, item_handler), items)` (line 345 of
`threadutil.py`), so despite its docstring it delivers in the pool's completion
order `completed`, not in submission order. -/
def handle_with_item (items : List α) (item_handler : α → β) (completed : List α) :
    List (α × β) :=
  imap_unordered ( _with_item item_handler) completed

/-- `handle_with_item_unordered`: identical body to `handle_with_item`,
iterating `pool.imap_unordered` over `(item, result)` pairs. -/
def handle_with_item_unordered (items : List α) (item_handler : α → β) (completed : List α) :
    List (α × β) :=
  imap_unordered ( _with_item item_handler) completed

/-! ### threadutil: dispatch with a failing handler

When the handler may raise, `pool.imap`'s result iterator re-raises the
handler's exception at the point the failing unit's result is retrieved, in
submission order; the consuming `for` loop therefore delivers every result that
precedes the first failing unit and then propagates the exception out of the
dispatch call. -/

/-- Iterating `pool.imap` with a handler that may raise: yields the results of
the units before the first failing unit, and the first failure (if any) as the
exception that escapes the loop. -/
def imapE (f : α → Except ε β) : List α → List β × Option ε
  | [] => ([], none)
  | x :: xs =>
    match f x with
    | .error e => ([], some e)
    | .ok y =>
      let r := imapE f xs
      (y :: r.1, r.2)

/-- The results of the units strictly before the first failing unit: exactly
the values handed to `result_handler` before the dispatch call aborts. -/
def okResults (f : α → Except ε β) : List α → List β
  | [] => []
  | x :: xs =>
    match f x with
    | .error _ => []
    | .ok y => y :: okResults f xs

/-- The exception of the first failing unit, if any unit fails. -/
def firstErr (f : α → Except ε β) : List α → Option ε
  | [] => none
  | x :: xs =>
    match f x with
    | .error e => some e
    | .ok _ => firstErr f xs

/-- `batch_handle` with a batch handler that may raise: the pair of the
`result_handler` invocation sequence performed before the failure (all of them,
when no batch fails) and the exception that escapes the call, if any. -/
def batch_handleE (items : List α) (batch_size : Int) (batch_handler : List α → Except ε β) :
    Except String (List β × Option ε) :=
  (batch items batch_size).map (fun bs => imapE batch_handler bs)

/-- A sample fallible batch handler for concrete instantiations: sums a batch,
failing on any batch whose sum exceeds 4. -/
def demoHandler (b : List Nat) : Except String Nat :=
  if b.sum > 4 then .error "boom" else .ok b.sum

/-- Modelled from the spec for the refinement claim C5 only: the sequential
program that applies `batch_handler` to each batch of the partition in order
and passes each result to `result_handler`. -/
def seq_batch_dispatch (items : List α) (batch_size : Int) (batch_handler : List α → β) :
    Except String (List β) :=
  (batch items batch_size).map (fun bs => bs.map batch_handler)

/-! ### loggingutil -/

/-- The exceptions `loggingutil.py` raises: its own `NotInitialized` and
`AlreadyInitialized` classes, and the built-in `ValueError` for a too-short
root name. -/
inductive LogError where
  | notInitialized (msg : String)
  | alreadyInitialized (msg : String)
  | valueError (msg : String)
deriving DecidableEq

/-- The module state of `loggingutil.py`: the `_root_name` module variable,
initially `None`. -/
structure LogState where
  root_name : Option String
deriving DecidableEq

/-- `get_root_logger`: raises `NotInitialized` while `_root_name` is `None`,
otherwise returns `logging.getLogger(_root_name)`, modelled by the logger's
name. -/
def get_root_logger (s : LogState) : Except LogError String :=
  match s.root_name with
  | none => .error (.notInitialized "Logging hasn't been initialized!")
  | some n => .ok n

/-- `get_logger`: `get_root_logger().getChild(name)`; `Logger.getChild` names
the child logger `root + "." + name`. -/
def get_logger (name : String) (s : LogState) : Except LogError String :=
  (get_root_logger s).map (fun root => root ++ "." ++ name)

/-- `initialize` from `loggingutil.py` (primed because the bare name is not
available here): raises `AlreadyInitialized` when `_root_name` is already set,
then `ValueError` when `root_name` is `None` or at most two characters long,
and otherwise stores `root_name`. The handler wiring below those checks touches
no module state. Returns the new module state with the outcome. -/
def initialize' (root_name : Option String) (s : LogState) :
    LogState × Except LogError Unit :=
  match s.root_name with
  | some _ => (s, .error (.alreadyInitialized "Logging has already been initialized."))
  | none =>
    match root_name with
    | none => (s, .error (.valueError "The root logger name is too short or None."))
    | some n =>
      if n.length ≤ 2 then
        (s, .error (.valueError "The root logger name is too short or None."))
      else
        ({ root_name := some n }, .ok ())

/-! ### mongoutil -/

/-- The exceptions a wrapped MongoDB operation may raise: PyMongo's
`ConnectionFailure`, or anything else. -/
inductive MongoErr where
  | connectionFailure (msg : String)
  | otherError (msg : String)
deriving DecidableEq

/-- `autoretry` from `mongoutil.py` applied to one call of the wrapped method.
Successive invocations of the wrapped method need not behave alike, so the
method is modelled as a function of the invocation index; `autoretry` returns
how many invocations were made together with the call's outcome: the first
invocation's outcome unless it is a `ConnectionFailure`, in which case the
second invocation's outcome, caught by nothing. -/
def autoretry (method : Nat → Except MongoErr α) : Nat × Except MongoErr α :=
  match method 0 with
  | .error (.connectionFailure _) => (2, method 1)
  | r => (1, r)

/-! ## Lemmas about the partition function -/

theorem pyRangeNat_zero (s : Nat) : pyRangeNat 0 (s + 1) = [] := by
  simp [pyRangeNat, Nat.div_eq_of_lt (Nat.lt_succ_self s)]

theorem pyRangeNat_pos (n s : Nat) (hn : 0 < n) :
    pyRangeNat n (s + 1) = 0 :: (pyRangeNat (n - (s + 1)) (s + 1)).map (· + (s + 1)) := by
  have hcount : (n + s) / (s + 1) = (n - (s + 1) + s) / (s + 1) + 1 := by
    rcases Nat.lt_or_ge n (s + 1) with h | h
    · have h1 : n - (s + 1) = 0 := by omega
      have h3 : (n + s) / (s + 1) = 1 :=
        Nat.div_eq_of_lt_le (by omega) (by omega)
      rw [h1, h3, Nat.zero_add, Nat.div_eq_of_lt (Nat.lt_succ_self s)]
    · have heq : n + s = (n - (s + 1) + s) + (s + 1) := by omega
      rw [heq, Nat.add_div_right _ (Nat.succ_pos s)]
  unfold pyRangeNat
  rw [show n + (s + 1) - 1 = n + s by omega,
      show n - (s + 1) + (s + 1) - 1 = n - (s + 1) + s by omega,
      hcount, List.range_succ_eq_map]
  simp only [List.map_cons, List.map_map, Nat.zero_mul]
  congr 1
  apply List.map_congr_left
  intro i _
  simp [Nat.succ_mul, Nat.add_mul]

theorem pySlice_zero (items : List α) (hi : Nat) : pySlice items 0 hi = items.take hi := by
  simp [pySlice]

theorem pySlice_shift (items : List α) (k i m : Nat) :
    pySlice items (i + k) (i + k + m) = pySlice (items.drop k) i (i + m) := by
  unfold pySlice
  rw [List.drop_take, List.drop_take, List.drop_drop, Nat.add_comm k i]
  congr 1
  omega

/-- The slice list that `batch` builds for a positive size. -/
theorem batch_pos_eq_slices (items : List α) (size : Int) (hs : 0 < size) :
    batch items size
      = .ok ((pyRangeNat items.length size.toNat).map
          (fun i => pySlice items i (i + size.toNat))) := by
  have h0 : size ≠ 0 := by omega
  unfold batch pyRange0
  simp [h0, hs, Except.map]

theorem slices_eq_chunk (s : Nat) (items : List α) :
    (pyRangeNat items.length (s + 1)).map (fun i => pySlice items i (i + (s + 1)))
      = chunk s items := by
  induction items using chunk.induct s with
  | case1 => simp [pyRangeNat_zero, chunk]
  | case2 x xs ih =>
    rw [chunk]
    have hn : 0 < (x :: xs).length := by simp
    rw [pyRangeNat_pos _ s hn, List.map_cons, List.map_map]
    have hhead : pySlice (x :: xs) 0 (0 + (s + 1)) = x :: xs.take s := by
      rw [Nat.zero_add, pySlice_zero, List.take_succ_cons]
    rw [hhead]
    congr 1
    have hlen : (x :: xs).length - (s + 1) = (xs.drop s).length := by
      simp [List.length_drop]
    rw [hlen, ← ih]
    apply List.map_congr_left
    intro i _
    show pySlice (x :: xs) (i + (s + 1)) (i + (s + 1) + (s + 1)) = _
    rw [pySlice_shift (x :: xs) (s + 1) i (s + 1)]
    have : (x :: xs).drop (s + 1) = xs.drop s := by simp
    rw [this]

/-- For a positive size, `batch` is the chunking recursion. -/
theorem batch_pos_eq_chunk (items : List α) (size : Int) (hs : 0 < size) :
    batch items size = .ok (chunk (size.toNat - 1) items) := by
  have hts : 0 < size.toNat := by omega
  have h1 : size.toNat - 1 + 1 = size.toNat := by omega
  rw [batch_pos_eq_slices items size hs, ← h1, slices_eq_chunk, Nat.add_sub_cancel]

theorem chunk_flatten (s : Nat) (items : List α) : (chunk s items).flatten = items := by
  induction items using chunk.induct s with
  | case1 => simp [chunk]
  | case2 x xs ih =>
    rw [chunk, List.flatten_cons, ih, List.cons_append, List.take_append_drop]

theorem chunk_eq_nil_iff (s : Nat) (items : List α) : chunk s items = [] ↔ items = [] := by
  cases items with
  | nil => simp [chunk]
  | cons x xs => simp [chunk]

theorem chunk_mem_length (s : Nat) (items : List α) :
    ∀ b ∈ chunk s items, 1 ≤ b.length ∧ b.length ≤ s + 1 := by
  induction items using chunk.induct s with
  | case1 => simp [chunk]
  | case2 x xs ih =>
    intro b hb
    rw [chunk] at hb
    rcases List.mem_cons.mp hb with h | h
    · subst h
      constructor
      · simp
      · simp only [List.length_cons, List.length_take]
        omega
    · exact ih b h

theorem chunk_dropLast_length (s : Nat) (items : List α) :
    ∀ b ∈ (chunk s items).dropLast, b.length = s + 1 := by
  induction items using chunk.induct s with
  | case1 => simp [chunk]
  | case2 x xs ih =>
    intro b hb
    rw [chunk] at hb
    by_cases hrest : chunk s (xs.drop s) = []
    · rw [hrest] at hb
      simp at hb
    · rw [List.dropLast_cons_of_ne_nil hrest] at hb
      rcases List.mem_cons.mp hb with h | h
      · subst h
        have hd : xs.drop s ≠ [] := fun hh => hrest ((chunk_eq_nil_iff s _).mpr hh)
        have hslen : s < xs.length := by
          by_contra hc
          exact hd (List.drop_eq_nil_of_le (by omega))
        simp only [List.length_cons, List.length_take]
        omega
      · exact ih b h

/-! ## The claims -/

/-- C2: for every positive size, `batch` succeeds; on the empty list it
returns no batches; and on any list the returned batches concatenate back to
the input in order, every batch except possibly the last has length exactly
the size, and the last batch of a non-empty input has length between 1 and
the size. -/
theorem batch_partition_spec (items : List α) (size : Int) (hs : 0 < size) :
    ∃ bs, batch items size = .ok bs
      ∧ bs.flatten = items
      ∧ (items = [] → bs = [])
      ∧ (∀ b ∈ bs.dropLast, b.length = size.toNat)
      ∧ (items ≠ [] → ∃ lastb, bs.getLast? = some lastb
            ∧ 1 ≤ lastb.length ∧ lastb.length ≤ size.toNat) := by
  have h1 : size.toNat - 1 + 1 = size.toNat := by omega
  refine ⟨chunk (size.toNat - 1) items, batch_pos_eq_chunk items size hs, ?_, ?_, ?_, ?_⟩
  · exact chunk_flatten _ _
  · intro h
    exact (chunk_eq_nil_iff _ _).mpr h
  · intro b hb
    rw [← h1]
    exact chunk_dropLast_length _ _ b hb
  · intro hne
    have hbne : chunk (size.toNat - 1) items ≠ [] :=
      fun hh => hne ((chunk_eq_nil_iff _ _).mp hh)
    refine ⟨_, List.getLast?_eq_getLast _ hbne, ?_, ?_⟩
    · exact (chunk_mem_length _ _ _ (List.getLast_mem hbne)).1
    · have := (chunk_mem_length _ _ _ (List.getLast_mem hbne)).2
      omega

/-- Witness for C2, at `items = [1, 2, 3]` and `size = 2`. -/
theorem batch_partition_spec_witness :
    (0 : Int) < 2 ∧
    (∃ bs, batch ([1, 2, 3] : List Nat) 2 = .ok bs
      ∧ bs.flatten = [1, 2, 3]
      ∧ (([1, 2, 3] : List Nat) = [] → bs = [])
      ∧ (∀ b ∈ bs.dropLast, b.length = (2 : Int).toNat)
      ∧ (([1, 2, 3] : List Nat) ≠ [] → ∃ lastb, bs.getLast? = some lastb
            ∧ 1 ≤ lastb.length ∧ lastb.length ≤ (2 : Int).toNat)) :=
  ⟨by decide, batch_partition_spec [1, 2, 3] 2 (by decide)⟩

/-- C3 counterexample: the claim says every `size ≤ 0` is rejected with an
error, but at `size = -1` the code returns `.ok []`: Python's
`range(0, 3, -1)` is empty, so the comprehension silently produces no batches
and no error is raised. -/
theorem batch_negative_size_counterexample :
    batch ([1, 2, 3] : List Nat) (-1) = .ok [] := rfl

/-- C3 amended: only `size = 0` is rejected eagerly (the underlying `range`
raises `ValueError: range() arg 3 must not be zero` before any batching or
dispatch); for `size < 0` the partition silently returns an empty list of
batches instead of failing. -/
theorem batch_nonpositive_size (items : List α) (size : Int) (hs : size ≤ 0) :
    (size = 0 → batch items size = .error "range() arg 3 must not be zero")
    ∧ (size < 0 → batch items size = .ok []) := by
  constructor
  · intro h
    subst h
    simp [batch, pyRange0, Except.map]
  · intro h
    have h0 : size ≠ 0 := by omega
    have h1 : ¬ 0 < size := by omega
    simp [batch, pyRange0, h0, h1, Except.map]

/-- Witness for the amended C3, at `items = [1, 2, 3]` and `size = -1`. -/
theorem batch_nonpositive_size_witness :
    (-1 : Int) ≤ 0 ∧
    (((-1 : Int) = 0 →
        batch ([1, 2, 3] : List Nat) (-1) = .error "range() arg 3 must not be zero")
      ∧ ((-1 : Int) < 0 → batch ([1, 2, 3] : List Nat) (-1) = .ok [])) :=
  ⟨by decide, batch_nonpositive_size [1, 2, 3] (-1) (by decide)⟩

/-- C1: `handle_with_item` belongs to the ordered-delivery family (its
docstring shows submission-order output and a separate `_unordered` twin
exists), yet its body iterates `pool.imap_unordered`: with items `[1, 2, 3]`,
the squaring handler, and a pool that completes the units in the order
`3, 2, 1`, `result_handler` receives `(3, 9)` before `(1, 1)`, violating the
claimed submission order. -/
theorem handle_with_item_order_bug :
    List.Perm [3, 2, 1] [1, 2, 3]
    ∧ handle_with_item [1, 2, 3] (fun x => x * x) [3, 2, 1] = [(3, 9), (2, 4), (1, 1)]
    ∧ handle_with_item [1, 2, 3] (fun x => x * x) [3, 2, 1] ≠ [(1, 1), (2, 4), (3, 9)] :=
  ⟨by decide, rfl, by decide⟩

/-- C5: `batch_handle` performs exactly the `result_handler` invocation
sequence of the sequential program that maps the batch handler over the
partition in order (`pool.imap` yields in submission order), and dispatching
`[0..70]` in batches of 7 with sum-of-batch delivers exactly
`[21, 70, 119, 168, 217, 266, 315, 364, 413, 462, 70]` in that order. -/
theorem batch_handle_refines_seq :
    (∀ (α β : Type) (items : List α) (size : Int) (bh : List α → β),
        batch_handle items size bh = seq_batch_dispatch items size bh)
    ∧ batch_handle (List.range 71) 7 (fun b => b.sum)
        = .ok [21, 70, 119, 168, 217, 266, 315, 364, 413, 462, 70] := by
  refine ⟨fun α β items size bh => rfl, ?_⟩
  rfl

/-- C7: the default pool is a lazily created process-wide singleton of fixed
capacity 8: the first call creates `ThreadPool(8)` and stores it, later calls
return the stored pool unchanged, the state always holds exactly the returned
pool afterwards, a repeated call is a no-op, and dispatch functions called
with `pool = None` go through `get_default_pool`. -/
theorem default_pool_singleton :
    get_default_pool none = (ThreadPool.new 8, some (ThreadPool.new 8))
    ∧ (ThreadPool.new 8).workers = 8
    ∧ (∀ p, get_default_pool (some p) = (p, some p))
    ∧ (∀ s, (get_default_pool s).2 = some (get_default_pool s).1)
    ∧ (∀ s, get_default_pool (get_default_pool s).2
          = ((get_default_pool s).1, (get_default_pool s).2))
    ∧ (∀ s, resolve_pool none s = get_default_pool s) :=
  ⟨rfl, rfl, fun _ => rfl, fun s => by cases s <;> rfl, fun s => by cases s <;> rfl,
    fun _ => rfl⟩

/-! ## Unordered dispatch and failure propagation -/

/-- C4: for any completion order the pool may produce (any permutation of the
submitted units), unordered dispatch handles each unit exactly once, with no
duplicates and no omissions: the delivered sequence is a permutation of the
sequential reference delivery — the per-item `(item, result)` pairs are a
permutation of mapping the handler over the input, and the per-batch results
are a permutation of mapping the batch handler over the partition. -/
theorem unordered_dispatch_perm {α β γ : Type} (items completed : List α)
    (item_handler : α → β) (hc : completed.Perm items)
    (size : Int) (batch_handler : List α → γ) (bs completedB : List (List α))
    (hbs : batch items size = .ok bs) (hbc : completedB.Perm bs) :
    (handle_with_item_unordered items item_handler completed).Perm
        (items.map (fun x => (x, item_handler x)))
    ∧ (handle_unordered items item_handler completed).Perm (items.map item_handler)
    ∧ ∃ out, batch_handle_unordered items size batch_handler completedB = .ok out
        ∧ out.Perm (bs.map batch_handler) := by
  refine ⟨hc.map _, hc.map _, imap_unordered batch_handler completedB, ?_, hbc.map _⟩
  unfold batch_handle_unordered
  rw [hbs]
  rfl

/-- Witness for C4: items `[1, 2, 3]` completed in the order `2, 3, 1`, and
batches of size 2 completed in reverse order. -/
theorem unordered_dispatch_perm_witness :
    List.Perm [2, 3, 1] [1, 2, 3]
    ∧ batch ([1, 2, 3] : List Nat) 2 = .ok [[1, 2], [3]]
    ∧ List.Perm [[3], [1, 2]] [[1, 2], [3]]
    ∧ ((handle_with_item_unordered [1, 2, 3] (fun x => x * x) [2, 3, 1]).Perm
          ([1, 2, 3].map (fun x => (x, x * x)))
      ∧ (handle_unordered [1, 2, 3] (fun x => x * x) [2, 3, 1]).Perm
          ([1, 2, 3].map (fun x => x * x))
      ∧ ∃ out, batch_handle_unordered [1, 2, 3] 2 List.sum [[3], [1, 2]] = .ok out
          ∧ out.Perm ([[1, 2], [3]].map List.sum)) :=
  ⟨by decide, rfl, by decide,
    unordered_dispatch_perm [1, 2, 3] [2, 3, 1] (fun x => x * x) (by decide) 2 List.sum
      [[1, 2], [3]] [[3], [1, 2]] rfl (by decide)⟩

theorem imapE_eq (f : α → Except ε β) (xs : List α) :
    imapE f xs = (okResults f xs, firstErr f xs) := by
  induction xs with
  | nil => rfl
  | cons x xs ih =>
    cases hfx : f x with
    | error e => simp [imapE, okResults, firstErr, hfx]
    | ok y => simp [imapE, okResults, firstErr, hfx, ih]

theorem firstErr_some_of_mem (f : α → Except ε β) (xs : List α) (x : α)
    (hx : x ∈ xs) (e : ε) (hxe : f x = .error e) :
    ∃ err, firstErr f xs = some err ∧ ∃ y ∈ xs, f y = .error err := by
  induction xs with
  | nil => cases hx
  | cons a as ih =>
    cases hfa : f a with
    | error e0 =>
      exact ⟨e0, by simp [firstErr, hfa], a, List.mem_cons_self a as, hfa⟩
    | ok y =>
      rcases List.mem_cons.mp hx with h | h
      · subst h
        rw [hfa] at hxe
        cases hxe
      · rcases ih h with ⟨err, h1, y', hy', h2⟩
        exact ⟨err, by simp [firstErr, hfa, h1], y', List.mem_cons_of_mem _ hy', h2⟩

/-- C6: if the batch handler raises on some batch, the dispatch call does not
return normally: an exception raised by a handled batch escapes the call
unchanged (no suppression, retry, or default value), and the `result_handler`
invocations already performed — those for every batch before the first failing
one — remain performed. -/
theorem batch_handle_error_surfaces {α β ε : Type} (items : List α) (size : Int)
    (bh : List α → Except ε β) (bs : List (List α)) (hbs : batch items size = .ok bs)
    (b : List α) (hb : b ∈ bs) (e : ε) (hbe : bh b = .error e) :
    ∃ err, batch_handleE items size bh = .ok (okResults bh bs, some err)
      ∧ ∃ b' ∈ bs, bh b' = .error err := by
  rcases firstErr_some_of_mem bh bs b hb e hbe with ⟨err, h1, hmem⟩
  refine ⟨err, ?_, hmem⟩
  unfold batch_handleE
  rw [hbs]
  show Except.ok (imapE bh bs) = _
  rw [imapE_eq, h1]

/-- Witness for C6: `[1, 2, 3, 4]` in batches of 2 under `demoHandler`, which
fails on the second batch `[3, 4]`. -/
theorem batch_handle_error_surfaces_witness :
    batch ([1, 2, 3, 4] : List Nat) 2 = .ok [[1, 2], [3, 4]]
    ∧ ([3, 4] : List Nat) ∈ [[1, 2], [3, 4]]
    ∧ demoHandler [3, 4] = .error "boom"
    ∧ ∃ err, batch_handleE [1, 2, 3, 4] 2 demoHandler
          = .ok (okResults demoHandler [[1, 2], [3, 4]], some err)
        ∧ ∃ b' ∈ [[1, 2], [3, 4]], demoHandler b' = .error err :=
  ⟨rfl, by decide, rfl,
    batch_handle_error_surfaces [1, 2, 3, 4] 2 demoHandler [[1, 2], [3, 4]] rfl
      [3, 4] (by decide) "boom" rfl⟩

/-! ## Logging and retry claims -/

/-- C8: while `_root_name` is still `None`, both retrieval functions raise
`NotInitialized`; and once an `initialize` call has succeeded, every further
`initialize` call raises `AlreadyInitialized` and leaves the state unchanged. -/
theorem logging_protocol :
    (∀ s : LogState, s.root_name = none →
        get_root_logger s = .error (.notInitialized "Logging hasn't been initialized!")
        ∧ ∀ name, get_logger name s
            = .error (.notInitialized "Logging hasn't been initialized!"))
    ∧ (∀ (r : Option String) (s s' : LogState), initialize' r s = (s', .ok ()) →
        ∀ r', initialize' r' s'
            = (s', .error (.alreadyInitialized "Logging has already been initialized."))) := by
  constructor
  · intro s hs
    constructor
    · simp [get_root_logger, hs]
    · intro name
      simp [get_logger, get_root_logger, hs, Except.map]
  · intro r s s' hok r'
    unfold initialize' at hok
    cases hsr : s.root_name with
    | some n =>
      rw [hsr] at hok
      simp at hok
    | none =>
      rw [hsr] at hok
      cases r with
      | none => simp at hok
      | some n =>
        by_cases hlen : n.length ≤ 2
        · simp [hlen] at hok
        · simp [hlen] at hok
          rw [← hok]
          rfl

/-- C9: `autoretry` re-invokes the wrapped operation exactly once when the
first invocation raises `ConnectionFailure`, returning the second outcome
unchanged (whatever it is, including a second `ConnectionFailure`); on any
other first outcome it invokes the operation exactly once and returns that
outcome unchanged; the operation is invoked at most twice. -/
theorem autoretry_spec (method : Nat → Except MongoErr α) :
    ((∃ m, method 0 = .error (.connectionFailure m)) → autoretry method = (2, method 1))
    ∧ ((∀ m, method 0 ≠ .error (.connectionFailure m)) → autoretry method = (1, method 0))
    ∧ (autoretry method).1 ≤ 2 := by
  refine ⟨?_, ?_, ?_⟩
  · rintro ⟨m, hm⟩
    unfold autoretry
    rw [hm]
  · intro hno
    unfold autoretry
    cases h0 : method 0 with
    | ok v => rfl
    | error e =>
      cases e with
      | connectionFailure m => exact absurd h0 (hno m)
      | otherError m => rfl
  · unfold autoretry
    cases h0 : method 0 with
    | ok v => simp
    | error e => cases e <;> simp

/-- C10: an `initialize` call made while uninitialized with a `None` or
too-short root name raises `ValueError` and changes no state: the stored root
name stays `None`, retrieval still raises `NotInitialized`, and a subsequent
`initialize` with a valid root name succeeds. -/
theorem initialize_invalid_name (s : LogState) (hs : s.root_name = none)
    (r : Option String) (hr : r = none ∨ ∃ n, r = some n ∧ n.length ≤ 2) :
    initialize' r s = (s, .error (.valueError "The root logger name is too short or None."))
    ∧ get_root_logger s = .error (.notInitialized "Logging hasn't been initialized!")
    ∧ ∀ n, 2 < n.length → initialize' (some n) s = ({ root_name := some n }, .ok ()) := by
  refine ⟨?_, by simp [get_root_logger, hs], ?_⟩
  · rcases hr with h | ⟨n, hn, hlen⟩
    · subst h
      simp [initialize', hs]
    · subst hn
      simp [initialize', hs, hlen]
  · intro n hn
    simp [initialize', hs, Nat.not_le.mpr hn]

/-- Witness for C10 at the fresh state and the two-character name `"ab"`. -/
theorem initialize_invalid_name_witness :
    (⟨none⟩ : LogState).root_name = none
    ∧ ((some "ab" : Option String) = none
        ∨ ∃ n, (some "ab" : Option String) = some n ∧ n.length ≤ 2)
    ∧ (initialize' (some "ab") ⟨none⟩
          = (⟨none⟩, .error (.valueError "The root logger name is too short or None."))
      ∧ get_root_logger ⟨none⟩ = .error (.notInitialized "Logging hasn't been initialized!")
      ∧ ∀ n, 2 < n.length →
          initialize' (some n) ⟨none⟩ = ({ root_name := some n }, .ok ())) :=
  ⟨rfl, Or.inr ⟨"ab", rfl, by decide⟩,
    initialize_invalid_name ⟨none⟩ rfl (some "ab") (Or.inr ⟨"ab", rfl, by decide⟩)⟩

end Pyt
